import Mathlib

/-!
Verification of the booking / notification core of the schedule-management
repository (React front end plus Supabase SQL triggers).

Embedded source locations:
* `CalendarContext` (conflict check, daily capacity): `src/unnamed/part_004`
* `ReservationModal.checkConflicts`: `src/src/components/ReservationModal.tsx`
* `schedule_reminder_notifications`, `cancel_scheduled_notifications` and the
  `scheduled_notifications` table: `src/database-notifications.sql`
* `notifyScheduleCreated`, `notifyScheduleReminder`:
  `src/src/services/notificationService.ts`

Time is modelled as minutes since a fixed epoch (a plain `Int`), standing for
the millisecond instants carried by JavaScript `Date` values and SQL
timestamps. Calendar days (for date-fns `isSameDay`) are blocks of 1440
consecutive minutes in the single canonical time zone the app runs in.
-/

namespace Anken

/-- Length of a calendar day in minutes. -/
def minutesPerDay : Int := 1440

/-- Calendar day that instant `t` falls in (floor division, so it is also
correct for instants before the epoch). -/
def dayOf (t : Int) : Int := Int.fdiv t minutesPerDay

/-- date-fns `isSameDay`: two instants fall on the same calendar day. -/
def isSameDay (a b : Int) : Bool := decide (dayOf a = dayOf b)

/-- Equipment reference carried by a schedule: `{ id, type }` in
`src/src/types/index.ts` (kind is one of room / vehicle / sample). -/
structure Equipment where
  id : String
  type : String
deriving DecidableEq, Repr

/-- The fields of `Schedule` (`src/src/types/index.ts`) that the conflict and
capacity checks read: id, window, participants and equipment. -/
structure Schedule where
  id : String
  startTime : Int
  endTime : Int
  participants : List String
  equipment : List Equipment
deriving DecidableEq, Repr

/-- The three-disjunct time-overlap test inside
`checkScheduleConflicts` (`src/unnamed/part_004` lines 448-453):
`(startTime >= s.startTime && startTime < s.endTime) ||
 (endTime > s.startTime && endTime <= s.endTime) ||
 (startTime <= s.startTime && endTime >= s.endTime)`. -/
def timeOverlap (startTime endTime : Int) (s : Schedule) : Bool :=
  (decide (s.startTime ≤ startTime) && decide (startTime < s.endTime)) ||
  (decide (s.startTime < endTime) && decide (endTime ≤ s.endTime)) ||
  (decide (startTime ≤ s.startTime) && decide (s.endTime ≤ endTime))

/-- `participants.some(userId => schedule.participants.includes(userId))`. -/
def participantConflict (participants : List String) (s : Schedule) : Bool :=
  participants.any (fun userId => s.participants.contains userId)

/-- `equipment.some(eq => schedule.equipment.some(se => se.id === eq.id && se.type === eq.type))`. -/
def equipmentConflict (equipment : List Equipment) (s : Schedule) : Bool :=
  equipment.any (fun eq =>
    s.equipment.any (fun schedEq =>
      decide (schedEq.id = eq.id) && decide (schedEq.type = eq.type)))

/-- Result object `{ hasConflicts, conflicts }` of `checkScheduleConflicts`. -/
structure ConflictResult where
  hasConflicts : Bool
  conflicts : List Schedule
deriving DecidableEq, Repr

/-- `CalendarContext.checkScheduleConflicts` (`src/unnamed/part_004`
lines 442-474): filter the stored schedules to those whose window passes the
three-disjunct time-overlap test and that share a participant or an identical
equipment reference with the candidate. -/
def checkScheduleConflicts (schedules : List Schedule)
    (startTime endTime : Int) (participants : List String)
    (equipment : List Equipment) : ConflictResult :=
  let conflicts := schedules.filter (fun s =>
    timeOverlap startTime endTime s &&
    (participantConflict participants s || equipmentConflict equipment s))
  ⟨decide (0 < conflicts.length), conflicts⟩

/-- `CalendarContext.getSchedulesForDate` (`src/unnamed/part_004`
lines 416-428): a schedule belongs to `date` when it starts on that calendar
day, ends on that calendar day, or strictly spans the instant `date`. -/
def getSchedulesForDate (schedules : List Schedule) (date : Int) : List Schedule :=
  schedules.filter (fun s =>
    isSameDay s.startTime date || isSameDay s.endTime date ||
    (decide (s.startTime < date) && decide (date < s.endTime)))

/-- The daily-capacity guard at the top of `addSchedule`
(`src/unnamed/part_004` lines 476-481): reject the candidate when
`getSchedulesForDate(candidate.startTime).length >= 10`. -/
def dailyCapRejects (schedules : List Schedule) (startTime : Int) : Bool :=
  decide (10 ≤ (getSchedulesForDate schedules startTime).length)

/-- JavaScript `String.prototype.trim`: drop whitespace from both ends
(written with structural recursion over the character list so that concrete
instances evaluate). -/
def trimString (s : String) : String :=
  String.mk (((s.data.dropWhile Char.isWhitespace).reverse.dropWhile
    Char.isWhitespace).reverse)

/-- `ReservationModal.checkConflicts` (`src/src/components/ReservationModal.tsx`
lines 205-233): participants are filtered to non-blank ids; when none remain
the function returns `[]`; otherwise the Supabase query returns the schedules
whose participant array overlaps the valid participants and that satisfy
`end_time >= candidate.startTime` and `start_time <= candidate.endTime`
(inclusive comparisons), excluding the schedule being edited, if any. -/
def modalCheckConflicts (schedules : List Schedule) (startTime endTime : Int)
    (participants : List String) (excludeId : Option String) : List Schedule :=
  let validParticipants := participants.filter (fun p =>
    decide (p ≠ "") && decide (trimString p ≠ ""))
  if validParticipants.isEmpty then []
  else schedules.filter (fun s =>
    s.participants.any (fun u => validParticipants.contains u) &&
    decide (startTime ≤ s.endTime) && decide (s.startTime ≤ endTime) &&
    (match excludeId with
     | some editingId => decide (s.id ≠ editingId)
     | none => true))

/-! ### Scheduled notifications (`src/database-notifications.sql`) -/

/-- Status values admitted by the `CHECK` constraint on
`scheduled_notifications.status` (lines 65-76 of the schema):
`pending`, `sent`, `failed`, `cancelled`. -/
inductive SNStatus where
  | pending
  | sent
  | failed
  | cancelled
deriving DecidableEq, Repr

/-- One row of `scheduled_notifications` (columns the triggers touch). -/
structure SNRow where
  scheduleId : String
  userId : String
  reminderTime : Int
  notificationType : String
  scheduledFor : Int
  status : SNStatus
deriving DecidableEq, Repr

/-- One element of the `reminders` JSONB array on a schedule:
`{ time, methods }`. -/
structure Reminder where
  time : Int
  methods : List String
deriving DecidableEq, Repr

/-- The fields of a `schedules` row that
`schedule_reminder_notifications` reads. -/
structure SqlSchedule where
  id : String
  startTime : Int
  participants : List String
  reminders : List Reminder
deriving DecidableEq, Repr

/-- Trigger operation (`TG_OP`): the trigger fires `AFTER INSERT OR UPDATE`. -/
inductive TgOp where
  | insert
  | update
deriving DecidableEq, Repr

/-- The `CASE` expression choosing `notification_type` from the reminder's
`methods` array. -/
def reminderNotificationType (methods : List String) : String :=
  if methods.contains "email" && methods.contains "push" then "both"
  else if methods.contains "email" then "email"
  else if methods.contains "push" then "push"
  else "email"

/-- Body of the inner loop of `schedule_reminder_notifications`
(`src/database-notifications.sql` lines 392-427) for one
(participant, reminder) pair: compute
`scheduled_time := start_time - reminder_time minutes`; if it is in the
future, on `UPDATE` first `DELETE` every `scheduled_notifications` row with
this `schedule_id` and `user_id` (no status filter in the source), then
`INSERT` the new pending row; otherwise leave the table unchanged. -/
def processReminder (op : TgOp) (now : Int) (sch : SqlSchedule)
    (participantId : String) (r : Reminder) (db : List SNRow) : List SNRow :=
  let scheduledTime := sch.startTime - r.time
  if now < scheduledTime then
    let afterDelete :=
      match op with
      | .update => db.filter (fun row =>
          !(decide (row.scheduleId = sch.id) && decide (row.userId = participantId)))
      | .insert => db
    afterDelete ++
      [⟨sch.id, participantId, r.time, reminderNotificationType r.methods,
        scheduledTime, .pending⟩]
  else db

/-- `schedule_reminder_notifications` (`src/database-notifications.sql`
lines 378-433): when the schedule has a non-empty `reminders` array, loop over
its participants and, inside, over its reminders, applying `processReminder`
to the table state. -/
def scheduleReminderNotifications (op : TgOp) (now : Int) (sch : SqlSchedule)
    (db : List SNRow) : List SNRow :=
  if 0 < sch.reminders.length then
    sch.participants.foldl
      (fun acc participantId =>
        sch.reminders.foldl
          (fun acc2 r => processReminder op now sch participantId r acc2) acc)
      db
  else db

/-- The `BEFORE DELETE` trigger `cancel_scheduled_notifications`
(`src/database-notifications.sql` lines 442-457): set `status = 'cancelled'`
on every row of the deleted schedule whose status is `'pending'`. -/
def cancelScheduledNotifications (db : List SNRow) (scheduleId : String) : List SNRow :=
  db.map (fun r =>
    if decide (r.scheduleId = scheduleId) && decide (r.status = SNStatus.pending)
    then { r with status := SNStatus.cancelled }
    else r)

/-- The foreign key `schedule_id UUID REFERENCES schedules(id) ON DELETE
CASCADE` on `scheduled_notifications` (line 67 of the schema): deleting a
schedule removes every `scheduled_notifications` row that references it. -/
def cascadeDeleteRows (db : List SNRow) (scheduleId : String) : List SNRow :=
  db.filter (fun r => decide (r.scheduleId ≠ scheduleId))

/-- Net effect on `scheduled_notifications` of deleting one `schedules` row:
the `BEFORE DELETE` trigger runs first, then the `ON DELETE CASCADE`
of the foreign key removes the schedule's rows. -/
def deleteScheduleEffects (db : List SNRow) (scheduleId : String) : List SNRow :=
  cascadeDeleteRows (cancelScheduledNotifications db scheduleId) scheduleId

/-! ### Notification service (`src/src/services/notificationService.ts`) -/

/-- The `notification_preferences` fields that `notifyScheduleCreated` and
`notifyScheduleReminder` read, plus the stored quiet-hours fields
(`quiet_hours_enabled`, `quiet_hours_start`, `quiet_hours_end`; start and end
are minutes of the day when set). -/
structure NotificationPreferences where
  emailEnabled : Bool
  emailScheduleCreated : Bool
  emailScheduleReminder : Bool
  pushEnabled : Bool
  pushScheduleCreated : Bool
  pushScheduleReminder : Bool
  quietHoursEnabled : Bool
  quietHoursStart : Option Nat
  quietHoursEnd : Option Nat
deriving DecidableEq, Repr

/-- Externally visible effects of the notification service, in program order:
an in-app `notification_logs` insert (with its category and status), an email
send, or a push send. -/
inductive NotifyAction where
  | logInApp (category : String) (status : String)
  | sendEmail (category : String)
  | sendPush (category : String)
deriving DecidableEq, Repr

/-- `notifyScheduleCreated` (`src/src/services/notificationService.ts`
lines 255-327): first always insert the in-app `notification_logs` row with
`status: 'sent'`; then load the user's preferences (`none` when the user has
no preferences row); if absent, stop; otherwise send the email when
`emailEnabled && emailScheduleCreated` and the push when
`pushEnabled && pushScheduleCreated`. -/
def notifyScheduleCreated (prefs : Option NotificationPreferences) : List NotifyAction :=
  NotifyAction.logInApp "schedule_created" "sent" ::
    (match prefs with
     | none => []
     | some p =>
       (if p.emailEnabled && p.emailScheduleCreated
        then [NotifyAction.sendEmail "schedule_created"] else []) ++
       (if p.pushEnabled && p.pushScheduleCreated
        then [NotifyAction.sendPush "schedule_created"] else []))

/-- `notifyScheduleReminder` (`src/src/services/notificationService.ts`
lines 411-456): load the user's preferences; if absent, stop; otherwise send
the reminder email when `emailEnabled && emailScheduleReminder` and the
reminder push when `pushEnabled && pushScheduleReminder`. The function takes
no clock and reads none of the quiet-hours fields. -/
def notifyScheduleReminder (prefs : Option NotificationPreferences) : List NotifyAction :=
  match prefs with
  | none => []
  | some p =>
    (if p.emailEnabled && p.emailScheduleReminder
     then [NotifyAction.sendEmail "schedule_reminder"] else []) ++
    (if p.pushEnabled && p.pushScheduleReminder
     then [NotifyAction.sendPush "schedule_reminder"] else [])

/-! ### Spec-modelled components (absent from the source snapshot) -/

/-- Half-open time window of a booking occurrence (`stop` is the exclusive
end instant; `end` is a Lean keyword). -/
structure TimeWindow where
  start : Int
  stop : Int
deriving DecidableEq, Repr

/-- Modelled from the spec: the RecurrenceExpander of spec section 4.4 is
absent from the source snapshot (recurrence rules are stored by
`ReservationModal` and persisted, but no code expands them into occurrence
instances). For a uniform-step frequency, `endType = count n` expands the
seed window into `n` windows whose starts are `stepMinutes` apart and whose
durations equal the seed's duration. -/
def expandUniformCount (stepMinutes : Int) (count : Nat) (seed : TimeWindow) :
    List TimeWindow :=
  (List.range count).map (fun k =>
    ⟨seed.start + stepMinutes * (k : Int), seed.stop + stepMinutes * (k : Int)⟩)

/-- Modelled from the spec: the weekly step is 7 days, scaled by the rule's
`interval` (every Nth week). -/
def weeklyStepMinutes (interval : Nat) : Int := 7 * minutesPerDay * (interval : Int)

/-- Modelled from the spec: expansion of a `weekly` rule with the given
`interval` and `endType = count`. -/
def expandWeeklyCount (interval count : Nat) (seed : TimeWindow) : List TimeWindow :=
  expandUniformCount (weeklyStepMinutes interval) count seed

/-- ScheduledNotification lifecycle states of spec sections 3 and 4.7,
including the `Claimed` state that the dispatcher's compare-and-swap
introduces (the dispatcher, `src/services/schedulerService.ts`, is referenced
by `App.tsx` and the implementation guide but absent from the snapshot). -/
inductive DispatchStatus where
  | pending
  | claimed
  | sent
  | failed
  | cancelled
deriving DecidableEq, Repr

/-- Modelled from the spec: the dispatcher's atomic claim of spec section 4.7
step 2 — a compare-and-swap that moves a row from `Pending` to `Claimed` and
reports success, and leaves any other status unchanged, reporting failure.
The dispatcher code itself (`src/services/schedulerService.ts`) is absent
from the snapshot. -/
def claimCAS (s : DispatchStatus) : DispatchStatus × Bool :=
  if s = DispatchStatus.pending then (DispatchStatus.claimed, true) else (s, false)

/-- Spec section 4.1's overlap predicate, written from the spec's words for
the refinement claim: `overlaps(a, b) := a.start < b.end AND b.start < a.end`. -/
def specOverlaps (aStart aEnd bStart bEnd : Int) : Bool :=
  decide (aStart < bEnd) && decide (bStart < aEnd)

/-! ### Concrete inputs used by the claim theorems -/

/-- An existing booking 11:00-12:00 (minutes 660-720) with participant `u1`:
its window touches a candidate 10:00-11:00 window at 11:00. -/
def touchingBooking : Schedule := ⟨"2", 660, 720, ["u1"], []⟩

/-- Ten bookings that start on calendar day 9 (minute 13560 = day 9, 10:00)
and end on calendar day 10 (minute 14700 = day 10, 05:00): none of them
starts on day 10. -/
def spanningDaySchedules : List Schedule :=
  (List.range 10).map (fun i => ⟨toString i, 13560, 14700, ["u"], []⟩)

/-- Nine bookings that start and end inside calendar day 10. -/
def nineSameDaySchedules : List Schedule :=
  (List.range 9).map (fun i => ⟨toString i, 15000, 15060, ["u"], []⟩)

/-- A schedule starting at minute 1000 with one participant and two future
reminders (10 and 30 minutes before the start). -/
def twoReminderSchedule : SqlSchedule :=
  ⟨"s1", 1000, ["u"], [⟨10, ["email"]⟩, ⟨30, ["email"]⟩]⟩

/-- A stale pre-update row for `twoReminderSchedule`'s participant, carrying
the pre-update due time 985. -/
def staleRow : SNRow := ⟨"s1", "u", 15, "email", 985, .pending⟩

/-- A schedule whose single reminder's recomputed due time (minute 70) lies
in the past at planning time 200. -/
def pastDueSchedule : SqlSchedule := ⟨"s2", 100, ["u"], [⟨30, ["email"]⟩]⟩

/-- A stale pre-update row for `pastDueSchedule`'s participant. -/
def pastStaleRow : SNRow := ⟨"s2", "u", 30, "email", 70, .pending⟩

/-- A row of schedule `s1` already in status `sent`. -/
def sentRow : SNRow := ⟨"s1", "u", 15, "email", 985, .sent⟩

/-- A row of schedule `s1` still in status `pending`. -/
def pendingRow : SNRow := ⟨"s1", "u", 30, "email", 970, .pending⟩

/-! ## Claim theorems -/

/-- C1: for a candidate 10:00-11:00 and an existing 11:00-12:00 booking
sharing participant `u1` (windows merely touch at 11:00),
`CalendarContext.checkScheduleConflicts` indeed reports no conflict, but
`ReservationModal.checkConflicts` — whose query uses the inclusive
comparisons `end_time >= candidate.start` and `start_time <= candidate.end` —
returns the touching booking as a conflict, so the claim's "no conflict in
both implementations" fails on the code. -/
theorem touching_windows_divergence :
    (checkScheduleConflicts [touchingBooking] 600 660 ["u1"] []).conflicts = [] ∧
    modalCheckConflicts [touchingBooking] 600 660 ["u1"] none = [touchingBooking] :=
  ⟨by rfl, by rfl⟩

/-- C2 counterexample: with ten existing bookings that end on the candidate's
calendar day but start the previous day, the daily-capacity guard rejects the
candidate (start minute 15000, day 10) even though zero existing bookings
start on that day — refuting "rejects if and only if the count of bookings
whose window start falls on the same day is at least 10". -/
theorem daily_cap_not_start_day_count :
    ¬ (dailyCapRejects spanningDaySchedules 15000 = true ↔
       10 ≤ (spanningDaySchedules.filter
         (fun s => isSameDay s.startTime 15000)).length) := by
  decide

/-- C2 amended: the guard in `addSchedule` rejects the candidate if and only
if at least 10 existing bookings start on the candidate's calendar day, end
on that calendar day, or strictly span the candidate's start instant (the cap
10 is hard-coded); consequently at a same-day count of 9 the candidate is
accepted. -/
theorem daily_cap_amended (schedules : List Schedule) (t : Int) :
    (dailyCapRejects schedules t = true ↔
      10 ≤ schedules.countP (fun s =>
        decide (dayOf s.startTime = dayOf t) || decide (dayOf s.endTime = dayOf t) ||
        (decide (s.startTime < t) && decide (t < s.endTime)))) ∧
    (schedules.countP (fun s =>
        decide (dayOf s.startTime = dayOf t) || decide (dayOf s.endTime = dayOf t) ||
        (decide (s.startTime < t) && decide (t < s.endTime))) = 9 →
      dailyCapRejects schedules t = false) := by
  have hcount : schedules.countP (fun s =>
      decide (dayOf s.startTime = dayOf t) || decide (dayOf s.endTime = dayOf t) ||
      (decide (s.startTime < t) && decide (t < s.endTime))) =
      (getSchedulesForDate schedules t).length := by
    rw [List.countP_eq_length_filter]
    rfl
  constructor
  · rw [dailyCapRejects, hcount]
    exact decide_eq_true_iff
  · intro h9
    rw [hcount] at h9
    rw [dailyCapRejects, h9]
    decide

/-- C2 witness for the amended theorem: nine bookings on the candidate's day
leave the candidate accepted. -/
theorem daily_cap_amended_witness :
    dailyCapRejects nineSameDaySchedules 15000 = false :=
  (daily_cap_amended nineSameDaySchedules 15000).2 (by decide)

/-- C3: on a booking update, `schedule_reminder_notifications` does not end
with the full recomputed set of rows. The `DELETE` sits inside the
per-reminder loop (so each later reminder's iteration deletes the rows the
earlier iterations just inserted for the same participant), and the `DELETE`
is guarded by the future-due check (so a recomputed due time in the past
leaves the stale pre-update row in place). Concretely: updating a schedule
with two future reminders leaves only the second reminder's row, and updating
a schedule whose recomputed due time is past leaves the stale row untouched. -/
theorem update_replan_loses_rows :
    scheduleReminderNotifications .update 0 twoReminderSchedule [staleRow] =
      [⟨"s1", "u", 30, "email", 970, .pending⟩] ∧
    scheduleReminderNotifications .update 200 pastDueSchedule [pastStaleRow] =
      [pastStaleRow] := by
  decide

/-- C5: deleting schedule `s1` removes every `scheduled_notifications` row of
that schedule — including the `sent` row that the claim says must remain as a
historical record — because the foreign key is declared `ON DELETE CASCADE`.
The `BEFORE DELETE` trigger does set the pending row to `cancelled` first,
but the cascade then deletes all of the schedule's rows, so nothing survives
the deletion. -/
theorem delete_cascade_removes_history :
    cancelScheduledNotifications [sentRow, pendingRow] "s1" =
      [sentRow, { pendingRow with status := SNStatus.cancelled }] ∧
    deleteScheduleEffects [sentRow, pendingRow] "s1" = [] := by
  decide

/-- A row found in the table after one `processReminder` step was either
already there or is the freshly inserted pending row, whose due time is the
schedule start minus its reminder offset and lies strictly in the future. -/
theorem mem_processReminder {op : TgOp} {now : Int} {sch : SqlSchedule}
    {participantId : String} {r : Reminder} {db : List SNRow} {row : SNRow}
    (h : row ∈ processReminder op now sch participantId r db) :
    row ∈ db ∨
      (row.scheduledFor = sch.startTime - row.reminderTime ∧
       now < row.scheduledFor ∧ row.status = SNStatus.pending) := by
  rw [processReminder.eq_def] at h
  by_cases hfut : now < sch.startTime - r.time
  · rw [if_pos hfut] at h
    rcases List.mem_append.mp h with hleft | hright
    · left
      cases op with
      | update => exact (List.mem_filter.mp hleft).1
      | insert => exact hleft
    · right
      rcases List.mem_singleton.mp hright with rfl
      exact ⟨rfl, hfut, rfl⟩
  · rw [if_neg hfut] at h
    exact Or.inl h

/-- Folding `processReminder` over a reminder list only adds fresh
future-due pending rows. -/
theorem mem_foldl_reminders {op : TgOp} {now : Int} {sch : SqlSchedule}
    {participantId : String} {row : SNRow} :
    ∀ (rs : List Reminder) (acc : List SNRow),
      row ∈ rs.foldl
        (fun acc2 r => processReminder op now sch participantId r acc2) acc →
      row ∈ acc ∨
        (row.scheduledFor = sch.startTime - row.reminderTime ∧
         now < row.scheduledFor ∧ row.status = SNStatus.pending) := by
  intro rs
  induction rs with
  | nil => intro acc h; exact Or.inl h
  | cons r rs ih =>
    intro acc h
    rcases ih (processReminder op now sch participantId r acc) h with hmem | hfresh
    · exact mem_processReminder hmem
    · exact Or.inr hfresh

/-- Folding the per-participant reminder loop over the participant list only
adds fresh future-due pending rows. -/
theorem mem_foldl_participants {op : TgOp} {now : Int} {sch : SqlSchedule}
    {row : SNRow} :
    ∀ (pids : List String) (acc : List SNRow),
      row ∈ pids.foldl
        (fun acc participantId =>
          sch.reminders.foldl
            (fun acc2 r => processReminder op now sch participantId r acc2) acc)
        acc →
      row ∈ acc ∨
        (row.scheduledFor = sch.startTime - row.reminderTime ∧
         now < row.scheduledFor ∧ row.status = SNStatus.pending) := by
  intro pids
  induction pids with
  | nil => intro acc h; exact Or.inl h
  | cons pid pids ih =>
    intro acc h
    rcases ih _ h with hmem | hfresh
    · exact mem_foldl_reminders sch.reminders acc hmem
    · exact Or.inr hfresh

/-- C4: every row present after `schedule_reminder_notifications` runs was
either already in the table, or is a fresh pending row whose due time equals
the booking's start minus the reminder offset in minutes and is strictly in
the future at planning time — so the planner never inserts a
ScheduledNotification with a due time earlier than (or equal to) now. -/
theorem planner_never_inserts_past_due (op : TgOp) (now : Int)
    (sch : SqlSchedule) (db : List SNRow) (row : SNRow)
    (h : row ∈ scheduleReminderNotifications op now sch db) :
    row ∈ db ∨
      (row.scheduledFor = sch.startTime - row.reminderTime ∧
       now < row.scheduledFor ∧ row.status = SNStatus.pending) := by
  rw [scheduleReminderNotifications] at h
  by_cases hrem : 0 < sch.reminders.length
  · rw [if_pos hrem] at h
    exact mem_foldl_participants sch.participants db h
  · rw [if_neg hrem] at h
    exact Or.inl h

/-- C4 witness: planning a fresh schedule (start 1000, one reminder 15
minutes before, planning time 0) yields a row that satisfies the theorem's
conclusion: due time 985 = 1000 − 15, strictly after 0, status pending. -/
theorem planner_never_inserts_past_due_witness :
    (⟨"s1", "u", 15, "email", 985, .pending⟩ : SNRow) ∈
      scheduleReminderNotifications .insert 0
        ⟨"s1", 1000, ["u"], [⟨15, ["email"]⟩]⟩ [] ∧
    ((⟨"s1", "u", 15, "email", 985, .pending⟩ : SNRow) ∈ ([] : List SNRow) ∨
      ((985 : Int) = 1000 - 15 ∧ (0 : Int) < 985 ∧
       SNStatus.pending = SNStatus.pending)) :=
  ⟨by decide,
   planner_never_inserts_past_due .insert 0
     ⟨"s1", 1000, ["u"], [⟨15, ["email"]⟩]⟩ []
     ⟨"s1", "u", 15, "email", 985, .pending⟩ (by decide)⟩

/-- C6: the reminder send decision in `notifyScheduleReminder` consults only
the channel toggle and the reminder category toggle — for every stored
quiet-hours configuration (enabled flag, start, end), including
22:00-07:00, the decision is unchanged, so an email reminder whose send
moment falls at 23:30 or 06:00 inside the configured quiet window is sent
rather than suppressed (no wrap-around interval check exists in the send
path). -/
theorem reminder_ignores_quiet_hours (quietEnabled : Bool)
    (quietStart quietEnd : Option Nat) :
    notifyScheduleReminder (some
      { emailEnabled := true, emailScheduleCreated := true,
        emailScheduleReminder := true, pushEnabled := false,
        pushScheduleCreated := true, pushScheduleReminder := true,
        quietHoursEnabled := quietEnabled, quietHoursStart := quietStart,
        quietHoursEnd := quietEnd }) =
      [NotifyAction.sendEmail "schedule_reminder"] := by
  rfl

/-- C9: the dispatcher claim modelled from the spec is exclusive — on a
`pending` row the compare-and-swap succeeds and moves the row to `claimed`; a
second attempt against the result fails; and from any starting status, of two
serialized claim attempts at least one reports failure, so the same row is
never handed to two dispatchers. -/
theorem claim_cas_exclusive :
    claimCAS .pending = (.claimed, true) ∧
    (claimCAS (claimCAS .pending).1).2 = false ∧
    (∀ s : DispatchStatus,
      (claimCAS s).2 = false ∨ (claimCAS (claimCAS s).1).2 = false) := by
  refine ⟨by decide, by decide, ?_⟩
  intro s
  cases s <;> simp [claimCAS]

/-- C7: expanding a weekly rule with interval 1 and count 4 from any seed
window yields exactly 4 windows; their starts are the seed start plus 0, 1, 2
and 3 weeks (10080 minutes = 7 days apart consecutively); and every window
has the seed's duration. -/
theorem weekly_count_four_expansion (seed : TimeWindow) :
    (expandWeeklyCount 1 4 seed).length = 4 ∧
    (expandWeeklyCount 1 4 seed).map TimeWindow.start =
      [seed.start, seed.start + 10080, seed.start + 20160, seed.start + 30240] ∧
    (expandWeeklyCount 1 4 seed).map (fun w => w.stop - w.start) =
      List.replicate 4 (seed.stop - seed.start) := by
  have hrange : List.range 4 = [0, 1, 2, 3] := by decide
  refine ⟨?_, ?_, ?_⟩
  · simp [expandWeeklyCount, expandUniformCount, weeklyStepMinutes,
      minutesPerDay, hrange]
  · simp [expandWeeklyCount, expandUniformCount, weeklyStepMinutes,
      minutesPerDay, hrange]
  · simp [expandWeeklyCount, expandUniformCount, weeklyStepMinutes,
      minutesPerDay, hrange, List.replicate]

/-- C8: for a candidate window with a positive duration and an existing
booking with a positive duration that shares at least one participant with
the candidate, the booking appears in the conflict list of
`checkScheduleConflicts` run against the one-element existing list exactly
when the spec's open-interval overlap predicate
`a.start < b.end AND b.start < a.end` holds — the code's three-disjunct
time-overlap test is equivalent to the spec's predicate on well-formed
windows. -/
theorem conflict_member_iff_spec_overlaps (aStart aEnd : Int)
    (participants : List String) (equipment : List Equipment) (b : Schedule)
    (ha : aStart < aEnd) (hb : b.startTime < b.endTime)
    (hshare : ∃ u, u ∈ participants ∧ u ∈ b.participants) :
    b ∈ (checkScheduleConflicts [b] aStart aEnd participants equipment).conflicts ↔
      specOverlaps aStart aEnd b.startTime b.endTime = true := by
  obtain ⟨u, hu1, hu2⟩ := hshare
  have hpart : participantConflict participants b = true := by
    rw [participantConflict, List.any_eq_true]
    exact ⟨u, hu1, by simpa using hu2⟩
  simp only [checkScheduleConflicts, List.mem_filter, List.mem_singleton,
    true_and, hpart, Bool.true_or, Bool.and_true, specOverlaps, timeOverlap]
  simp only [Bool.or_eq_true, Bool.and_eq_true, decide_eq_true_eq]
  omega

/-- C8 witness: candidate 10:00-11:00 and an overlapping existing booking
10:30-11:30 sharing participant `u1`: the booking is in the conflict list and
the spec predicate holds. -/
theorem conflict_member_iff_spec_overlaps_witness :
    (⟨"2", 630, 690, ["u1"], []⟩ : Schedule) ∈
      (checkScheduleConflicts [⟨"2", 630, 690, ["u1"], []⟩]
        600 660 ["u1"] []).conflicts ↔
      specOverlaps 600 660 630 690 = true :=
  conflict_member_iff_spec_overlaps 600 660 ["u1"] []
    ⟨"2", 630, 690, ["u1"], []⟩ (by decide) (by decide)
    ⟨"u1", by decide, by decide⟩

/-- C10: for every preference state — including a missing preferences row and
preferences with both email and push disabled — `notifyScheduleCreated`'s
first effect is the in-app notification-log insert with status `sent`; the
email send happens exactly when a preferences row exists with the email
channel and the schedule-created email toggle on, and the push send exactly
when a row exists with the push channel and the schedule-created push toggle
on. -/
theorem created_always_logs_first (prefs : Option NotificationPreferences) :
    (notifyScheduleCreated prefs).head? =
      some (NotifyAction.logInApp "schedule_created" "sent") ∧
    (NotifyAction.sendEmail "schedule_created" ∈ notifyScheduleCreated prefs ↔
      ∃ p, prefs = some p ∧ p.emailEnabled = true ∧ p.emailScheduleCreated = true) ∧
    (NotifyAction.sendPush "schedule_created" ∈ notifyScheduleCreated prefs ↔
      ∃ p, prefs = some p ∧ p.pushEnabled = true ∧ p.pushScheduleCreated = true) := by
  refine ⟨rfl, ?_, ?_⟩ <;>
    cases prefs with
    | none => simp [notifyScheduleCreated]
    | some p =>
      cases hE : p.emailEnabled <;> cases hEC : p.emailScheduleCreated <;>
        cases hP : p.pushEnabled <;> cases hPC : p.pushScheduleCreated <;>
        simp [notifyScheduleCreated, hE, hEC, hP, hPC]

end Anken
